import Mathlib

/-!
Shallow embedding of the `Kusovaya_1_Transactions` analytics program
(`src/reports.py`, `src/services.py`, `src/utils.py`, `src/views.py`)
together with theorems settling the frozen claims about it.

Modelling conventions:
* pandas float amounts are modelled as exact rationals (`ℚ`);
  `round(x, 2)` / `Series.round(2)` (numpy half-to-even rounding) is
  modelled by `round2`, round-half-to-even on rationals.
* a datetime value inside a transaction table is modelled as a rational
  "day number" (`ℚ`): the integer part is the calendar day, the fractional
  part the time of day.  Day number `0` is declared to fall on a Monday, so
  `pandas .dt.dayofweek` becomes `⌊d⌋ % 7` and `.dt.date` becomes `⌊d⌋`.
  Window comparisons (`>= start`, `<= end`) become `≤` on `ℚ` and
  `timedelta(days = k)` becomes subtraction of `k`.
* `NaT` (an unparseable date, produced by `pd.to_datetime(errors="coerce")`)
  is modelled by `Option`: a row's date column holds `Option ℚ`, and
  `dropna` is `List.filterMap`.
* where calendar fields (year/month/day) are what the code reads
  (`services.py`, `views.py`, `strptime`), a datetime is instead modelled
  by the `Timestamp` structure carrying the six fields.
* a pandas `DataFrame` is a list of row records plus explicit booleans
  recording which of the named columns are present.
* Python dictionaries returned as report results are modelled by the
  `JVal` inductive (insertion-ordered key/value lists).
-/

/-- Round a rational to the nearest integer, ties to even: the rounding
performed by Python's `round` and numpy's `round` on the exact value. -/
def roundHalfEven (q : ℚ) : ℤ :=
  let f := ⌊q⌋
  let r := q - (f : ℚ)
  if r < 1/2 then f
  else if 1/2 < r then f + 1
  else if f % 2 = 0 then f else f + 1

/-- Model of Python `round(q, 2)` on exact rationals. -/
def round2 (q : ℚ) : ℚ := (roundHalfEven (q * 100) : ℚ) / 100

/-- Model of Python `round(q, 4)` on exact rationals. -/
def round4 (q : ℚ) : ℚ := (roundHalfEven (q * 10000) : ℚ) / 10000

/-- A parsed calendar timestamp, as produced by `datetime.strptime`. -/
structure Timestamp where
  year : ℕ
  month : ℕ
  day : ℕ
  hour : ℕ
  minute : ℕ
  second : ℕ
deriving DecidableEq

/-- Numeric value of a decimal digit character. -/
def digitVal (c : Char) : ℕ := c.toNat - 48

/-- Read one or two decimal digits, greedily two then one, each length
admitted only when the predicate for that length accepts the value: the
behaviour of CPython `_strptime`'s field regexes (e.g. for `%d` the regex
`3[01]|[12]\d|0[1-9]|[1-9]`). -/
def readNum1or2 (twoOk oneOk : ℕ → Bool) : List Char → Option (ℕ × List Char)
  | c1 :: c2 :: rest =>
    if c1.isDigit && c2.isDigit && twoOk (10 * digitVal c1 + digitVal c2) then
      some (10 * digitVal c1 + digitVal c2, rest)
    else if c1.isDigit && oneOk (digitVal c1) then
      some (digitVal c1, c2 :: rest)
    else none
  | [c1] =>
    if c1.isDigit && oneOk (digitVal c1) then some (digitVal c1, []) else none
  | [] => none

/-- Read a `%d` day field: two digits valued 01–31 or one digit 1–9. -/
def readDay (cs : List Char) : Option (ℕ × List Char) :=
  readNum1or2 (fun v => 1 ≤ v && v ≤ 31) (fun v => 1 ≤ v && v ≤ 9) cs

/-- Read a `%m` month field: two digits valued 01–12 or one digit 1–9. -/
def readMonth (cs : List Char) : Option (ℕ × List Char) :=
  readNum1or2 (fun v => 1 ≤ v && v ≤ 12) (fun v => 1 ≤ v && v ≤ 9) cs

/-- Read a `%H` hour field: 00–23, one or two digits. -/
def readHour (cs : List Char) : Option (ℕ × List Char) :=
  readNum1or2 (fun v => v ≤ 23) (fun v => v ≤ 9) cs

/-- Read a `%M` or `%S` field: 00–59, one or two digits. -/
def readMinSec (cs : List Char) : Option (ℕ × List Char) :=
  readNum1or2 (fun v => v ≤ 59) (fun v => v ≤ 9) cs

/-- Read a `%Y` year field: exactly four decimal digits. -/
def readYear4 : List Char → Option (ℕ × List Char)
  | c1 :: c2 :: c3 :: c4 :: rest =>
    if c1.isDigit && c2.isDigit && c3.isDigit && c4.isDigit then
      some (1000 * digitVal c1 + 100 * digitVal c2 + 10 * digitVal c3 + digitVal c4, rest)
    else none
  | _ => none

/-- Consume one expected literal character. -/
def expectChar (ch : Char) : List Char → Option (List Char)
  | c :: rest => if c = ch then some rest else none
  | [] => none

/-- Gregorian leap-year rule used by `datetime`. -/
def isLeap (y : ℕ) : Bool := y % 4 = 0 && (y % 100 ≠ 0 || y % 400 = 0)

/-- Number of days in a month, as validated by `datetime`'s constructor. -/
def daysInMonth (y m : ℕ) : ℕ :=
  if m = 2 then (if isLeap y then 29 else 28)
  else if m = 4 ∨ m = 6 ∨ m = 9 ∨ m = 11 then 30
  else 31

/-- Validity check applied by the `datetime` constructor (`MINYEAR = 1`). -/
def validDate (y m d : ℕ) : Bool := 1 ≤ y && d ≤ daysInMonth y m

/-- Read the date part `D.M.YYYY` of the `%d.%m.%Y` formats. -/
def readDMY (cs : List Char) : Option ((ℕ × ℕ × ℕ) × List Char) := do
  let (d, r1) ← readDay cs
  let r2 ← expectChar '.' r1
  let (m, r3) ← readMonth r2
  let r4 ← expectChar '.' r3
  let (y, r5) ← readYear4 r4
  if validDate y m d then pure ((y, m, d), r5) else none

/-- Read the date part `YYYY-M-D` of the `%Y-%m-%d` formats. -/
def readYMD (cs : List Char) : Option ((ℕ × ℕ × ℕ) × List Char) := do
  let (y, r1) ← readYear4 cs
  let r2 ← expectChar '-' r1
  let (m, r3) ← readMonth r2
  let r4 ← expectChar '-' r3
  let (d, r5) ← readDay r4
  if validDate y m d then pure ((y, m, d), r5) else none

/-- Read a `%H:%M:%S` time part. -/
def readHMS (cs : List Char) : Option ((ℕ × ℕ × ℕ) × List Char) := do
  let (h, r1) ← readHour cs
  let r2 ← expectChar ':' r1
  let (mi, r3) ← readMinSec r2
  let r4 ← expectChar ':' r3
  let (s, r5) ← readMinSec r4
  pure ((h, mi, s), r5)

/-- Model of `datetime.strptime(s, "%d.%m.%Y")` (failure = `ValueError`). -/
def strptimeDMY (s : String) : Option Timestamp := do
  let ((y, m, d), r) ← readDMY s.data
  if r = [] then pure ⟨y, m, d, 0, 0, 0⟩ else none

/-- Model of `datetime.strptime(s, "%Y-%m-%d")`. -/
def strptimeYMD (s : String) : Option Timestamp := do
  let ((y, m, d), r) ← readYMD s.data
  if r = [] then pure ⟨y, m, d, 0, 0, 0⟩ else none

/-- Model of `datetime.strptime(s, "%d.%m.%Y %H:%M:%S")`. -/
def strptimeDMYHMS (s : String) : Option Timestamp := do
  let ((y, m, d), r1) ← readDMY s.data
  let r2 ← expectChar ' ' r1
  let ((h, mi, sec), r3) ← readHMS r2
  if r3 = [] then pure ⟨y, m, d, h, mi, sec⟩ else none

/-- Model of `datetime.strptime(s, "%Y-%m-%d %H:%M:%S")`. -/
def strptimeYMDHMS (s : String) : Option Timestamp := do
  let ((y, m, d), r1) ← readYMD s.data
  let r2 ← expectChar ' ' r1
  let ((h, mi, sec), r3) ← readHMS r2
  if r3 = [] then pure ⟨y, m, d, h, mi, sec⟩ else none

/-- The format list tried by `reports._parse_date`, in source order:
`["%d.%m.%Y", "%Y-%m-%d", "%d.%m.%Y %H:%M:%S", "%Y-%m-%d %H:%M:%S"]`. -/
def dateFormats : List (String → Option Timestamp) :=
  [strptimeDMY, strptimeYMD, strptimeDMYHMS, strptimeYMDHMS]

/-- Model of `reports._parse_date`: `None` input yields `datetime.now()`
(passed in as `now`); otherwise each format is tried in order inside
`try/except ValueError: continue`, the first success wins, and if all four
fail the current date/time is returned after logging a warning. -/
def parse_date (dateStr : Option String) (now : Timestamp) : Timestamp :=
  match dateStr with
  | none => now
  | some s =>
    match dateFormats.findSome? (fun f => f s) with
    | some t => t
    | none => now

/-- Model of `reports._get_date_range`: `start = end - timedelta(days = months*30)`.
`months` is a Python `int`, hence `ℤ`. -/
def get_date_range (endDate : ℚ) (months : ℤ) : ℚ × ℚ :=
  (endDate - (months : ℚ) * 30, endDate)

/-- The inclusive date mask `(d >= start) & (d <= end)` shared by the
report aggregations. -/
def inWindow (startDate endDate d : ℚ) : Bool :=
  decide (startDate ≤ d) && decide (d ≤ endDate)

/-- A JSON-like value: the model of Python dict/list report results
(`dict` preserves insertion order, modelled by the ordered field list). -/
inductive JVal where
  | num (q : ℚ)
  | str (s : String)
  | obj (fields : List (String × JVal))

/-- Top-level keys of an object value, in insertion order. -/
def jKeys : JVal → List String
  | .obj l => l.map Prod.fst
  | _ => []

/-- Look up a key in an object value (first match). -/
def jGet (j : JVal) (k : String) : Option JVal :=
  match j with
  | .obj l => (l.find? (fun p => p.1 == k)).map Prod.snd
  | _ => none

/-- One row of the transaction table as consumed by `reports.py`:
the two possible date columns after `pd.to_datetime(..., errors="coerce")`
(`none` = `NaT`) and the payment amount `Сумма платежа`. -/
structure RRow where
  opDate : Option ℚ
  payDate : Option ℚ
  amount : ℚ
deriving DecidableEq

/-- The transaction table as consumed by `reports.py`: which named columns
are present, plus the rows. -/
structure RTable where
  hasOpDate : Bool
  hasPayDate : Bool
  hasAmount : Bool
  rows : List RRow
deriving DecidableEq

/-- Date-column selection of `reports.py`: `Дата операции` first,
falling back to `Дата платежа`. -/
def dateOf (t : RTable) (r : RRow) : Option ℚ :=
  if t.hasOpDate then r.opDate else if t.hasPayDate then r.payDate else none

/-- The rows surviving the shared pipeline of `spending_by_weekday` /
`spending_by_workday`: drop rows with unparseable dates (`dropna`), keep
dates inside the inclusive 3-month window ending at `e`, and keep only
expense rows (`Сумма платежа < 0`).  Each survivor is the pair
(date value, amount). -/
def windowRows (t : RTable) (e : ℚ) : List (ℚ × ℚ) :=
  let r := get_date_range e 3
  ((t.rows.filterMap (fun row => (dateOf t row).map (fun d => (d, row.amount)))).filter
      (fun p => inWindow r.1 r.2 p.1)).filter
    (fun p => decide (p.2 < 0))

/-- Model of pandas `.dt.dayofweek` on the day-number representation
(day number 0 is a Monday, so Monday = 0 .. Sunday = 6). -/
def wdayOf (d : ℚ) : ℕ := (⌊d⌋ % 7).toNat

/-- The localized weekday names of `spending_by_weekday`'s `days_map`. -/
def dayName : ℕ → String
  | 0 => "Понедельник"
  | 1 => "Вторник"
  | 2 => "Среда"
  | 3 => "Четверг"
  | 4 => "Пятница"
  | 5 => "Суббота"
  | _ => "Воскресенье"

/-- Mean of a list of rationals (`Series.mean`). -/
def listMean (l : List ℚ) : ℚ := l.sum / l.length

/-- One output row of `spending_by_weekday`, with its five columns. -/
structure WRow where
  wd : ℕ
  wdName : String
  avgSpent : ℚ
  totalSpent : ℚ
  txCount : ℕ
deriving DecidableEq

/-- Model of `reports.spending_by_weekday` given the resolved as-of date
`e` (a day number): missing required columns yield an empty frame; rows
with unparseable dates are dropped; only expense rows inside the inclusive
window survive; an empty survivor set yields an empty frame; otherwise the
rows are grouped by weekday (pandas `groupby` sorts the group keys
ascending, modelled by scanning weekday indices 0..6), and each nonempty
group yields mean/sum of absolute amounts rounded to 2 decimals and the
transaction count.  Weekdays with no rows are omitted.
`weekdayGroup` is one `groupby` group: the window rows of one weekday. -/
def weekdayGroup (t : RTable) (e : ℚ) (w : ℕ) : List (ℚ × ℚ) :=
  (windowRows t e).filter (fun p => wdayOf p.1 == w)

/-- Model of `reports.spending_by_weekday` (see `weekdayGroup`'s comment
for the whole pipeline): each nonempty weekday group yields one row. -/
def spending_by_weekday (t : RTable) (e : ℚ) : List WRow :=
  if !t.hasAmount then []
  else if !(t.hasOpDate || t.hasPayDate) then []
  else if windowRows t e = [] then []
  else
    (List.range 7).filterMap (fun w =>
      if weekdayGroup t e w = [] then none
      else some ⟨w, dayName w,
        round2 (listMean ((weekdayGroup t e w).map (fun p => |p.2|))),
        round2 (((weekdayGroup t e w).map (fun p => |p.2|)).sum),
        (weekdayGroup t e w).length⟩)

/-- Sum of the `общие_траты` column over the rows of a weekday report. -/
def sumTotals (l : List WRow) : ℚ := (l.map WRow.totalSpent).sum

/-- Sum of absolute amounts of the expense rows (with parseable dates)
inside the inclusive window: the right-hand side of claim C3. -/
def windowAbsSum (t : RTable) (e : ℚ) : ℚ :=
  ((windowRows t e).map (fun p => |p.2|)).sum

/-- The workday-partition rows (weekday index 0–4) of the window. -/
def wkRows (t : RTable) (e : ℚ) : List (ℚ × ℚ) :=
  (windowRows t e).filter (fun p => decide (wdayOf p.1 < 5))

/-- The weekend-partition rows (weekday index 5–6) of the window. -/
def weRows (t : RTable) (e : ℚ) : List (ℚ × ℚ) :=
  (windowRows t e).filter (fun p => decide (5 ≤ wdayOf p.1))

/-- The per-partition statistics record of `spending_by_workday`'s
non-empty-window branch, with its five fields. -/
structure PartStats where
  total_spent : ℚ
  avg_spent_per_day : ℚ
  avg_spent_per_transaction : ℚ
  transaction_count : ℕ
  days_count : ℕ
deriving DecidableEq

/-- The zero-filled partition record inserted for a day type with no
matching rows ("Добавляем недостающие типы дней"). -/
def zeroPart : PartStats := ⟨0, 0, 0, 0, 0⟩

/-- Statistics of one day-type group: for a nonempty group,
`total_spent = round(abs(sum), 2)`,
`avg_spent_per_day = round(abs(sum)/unique_days, 2)` guarded by
`unique_days > 0`, `avg_spent_per_transaction = round(abs(mean), 2)`,
the row count, and the number of distinct calendar days
(`dt.date.nunique`, i.e. distinct `⌊d⌋`); an absent group gets the
zero-filled record. -/
def partStats (g : List (ℚ × ℚ)) : PartStats :=
  if g = [] then zeroPart
  else
    let s := |(g.map Prod.snd).sum|
    let days := ((g.map (fun p => ⌊p.1⌋)).dedup).length
    ⟨round2 s,
     if 0 < days then round2 (s / days) else 0,
     round2 |(g.map Prod.snd).sum / g.length|,
     g.length,
     days⟩

/-- The `result["comparison"]` record of `spending_by_workday`. -/
structure CompStats where
  ratio_ww : ℚ
  workday_percent : ℚ
  weekend_percent : ℚ
deriving DecidableEq

/-- Model of the comparison block: the ratio is
`round(workday_avg / weekend_avg if weekend_avg > 0 else 0, 2)` and each
percentage is `round(total/combined*100 if combined > 0 else 0, 2)`. -/
def mkComparison (wk we : PartStats) : CompStats :=
  let combined := wk.total_spent + we.total_spent
  ⟨round2 (if we.avg_spent_per_day > 0 then
      wk.avg_spent_per_day / we.avg_spent_per_day else 0),
   round2 (if combined > 0 then wk.total_spent / combined * 100 else 0),
   round2 (if combined > 0 then we.total_spent / combined * 100 else 0)⟩

/-- Decimal rendering of a two-decimal nonnegative rational as Python's
`repr` of the corresponding float (at least one fractional digit, trailing
zero of the second place stripped): the value substituted into the
f-strings of `result_rus`. -/
def pyFloat2Str (q : ℚ) : String :=
  let k : ℕ := (q * 100).num.toNat
  let ip := k / 100
  let fr := k % 100
  Nat.repr ip ++ "." ++
    (if fr % 10 = 0 then Nat.repr (fr / 10)
     else if fr < 10 then "0" ++ Nat.repr fr
     else Nat.repr fr)

/-- The percent string `f"{result['comparison'][...]_percent}%"`: when the
combined total is positive the stored value is a float (rendered with a
decimal point); otherwise it is the Python int `0`, rendered `0%`. -/
def pctStr (combined q : ℚ) : String :=
  if 0 < combined then pyFloat2Str q ++ "%" else "0%"

/-- The five per-partition JSON fields, in the dict-literal insertion
order of the source. -/
def partJ (p : PartStats) : JVal :=
  .obj [("total_spent", .num p.total_spent),
        ("avg_spent_per_day", .num p.avg_spent_per_day),
        ("avg_spent_per_transaction", .num p.avg_spent_per_transaction),
        ("transaction_count", .num p.transaction_count),
        ("days_count", .num p.days_count)]

/-- The result returned when the window holds no expense rows: note the
English keys, the four (differently named) per-partition fields and the
single-entry comparison block. -/
def emptyWindowResult : JVal :=
  .obj [("workday", .obj [("total_spent", .num 0), ("avg_spent", .num 0),
          ("transactions", .num 0), ("days", .num 0)]),
        ("weekend", .obj [("total_spent", .num 0), ("avg_spent", .num 0),
          ("transactions", .num 0), ("days", .num 0)]),
        ("comparison", .obj [("workday_vs_weekend_ratio", .num 0)])]

/-- The dict `result_rus` built from the two partition records in the
non-empty-window branch: Russian top-level keys, the ratio as a number
and the two percentage shares as rendered strings. -/
def fullResult (wk we : PartStats) : JVal :=
  .obj [("рабочие_дни", partJ wk),
        ("выходные_дни", partJ we),
        ("сравнение", .obj
          [("соотношение_рабочие_к_выходным", .num (mkComparison wk we).ratio_ww),
           ("доля_рабочих_дней_в_тратах",
              .str (pctStr (wk.total_spent + we.total_spent) (mkComparison wk we).workday_percent)),
           ("доля_выходных_дней_в_тратах",
              .str (pctStr (wk.total_spent + we.total_spent) (mkComparison wk we).weekend_percent))])]

/-- The workday partition record of the report for a given table/date. -/
def wkStats (t : RTable) (e : ℚ) : PartStats := partStats (wkRows t e)

/-- The weekend partition record of the report for a given table/date. -/
def weStats (t : RTable) (e : ℚ) : PartStats := partStats (weRows t e)

/-- The comparison record of the report for a given table/date. -/
def compStats (t : RTable) (e : ℚ) : CompStats :=
  mkComparison (wkStats t e) (weStats t e)

/-- Model of `reports.spending_by_workday` given the resolved as-of date:
missing required columns yield `{}`; an empty window yields
`emptyWindowResult`; otherwise rows are partitioned into workday/weekend
groups, a missing group is zero-filled, the comparison is derived, and the
returned dict `result_rus` uses Russian top-level keys with the
percentages rendered as strings. -/
def spending_by_workday (t : RTable) (e : ℚ) : JVal :=
  if !t.hasAmount then .obj []
  else if !(t.hasOpDate || t.hasPayDate) then .obj []
  else
    if windowRows t e = [] then emptyWindowResult
    else fullResult (wkStats t e) (weStats t e)

/-- Insert an element into a list, placing it before the first element `y`
with `le x y`: the insertion step of a stable insertion sort. -/
def insBy (le : α → α → Bool) (x : α) : List α → List α
  | [] => [x]
  | y :: ys => if le x y then x :: y :: ys else y :: insBy le x ys

/-- Stable insertion sort with respect to `le`. -/
def isortBy (le : α → α → Bool) : List α → List α
  | [] => []
  | x :: xs => insBy le x (isortBy le xs)

/-- Ascending comparison on the value component used when sorting a
category → amount association by amount. -/
def valLe (a b : String × ℚ) : Bool := decide (a.2 ≤ b.2)

/-- Model of pandas `Series.sort_values(ascending=False)`: pandas computes
an ascending `argsort` of the values (default `kind="quicksort"`, whose
order among tied values is unspecified) and reverses the indexer.  The
model resolves the unspecified tie order by a stable ascending insertion
sort — numpy's actual algorithm below its small-array threshold, hence
the program's behaviour on every concrete instance appearing in this
file; theorems that quantify over all inputs use only tie-order-agnostic
consequences of this definition (the output is a permutation of the
input ordered by descending value). -/
def sortValsDesc (l : List (String × ℚ)) : List (String × ℚ) :=
  (isortBy valLe l).reverse

/-- Accumulator pass of `firstUniq`: keep each element not seen before. -/
def firstUniqAux [DecidableEq α] (seen : List α) : List α → List α
  | [] => []
  | x :: xs =>
    if x ∈ seen then firstUniqAux seen xs
    else x :: firstUniqAux (x :: seen) xs

/-- First-occurrence deduplication: the order contract of pandas
`Series.unique` and of `groupby`'s key collection before sorting. -/
def firstUniq [DecidableEq α] (l : List α) : List α := firstUniqAux [] l

/-- Code-point lexicographic comparison on character lists: the string
order used by numpy/pandas when sorting object (str) keys. -/
def charsLt : List Char → List Char → Bool
  | _, [] => false
  | [], _ :: _ => true
  | a :: as, b :: bs =>
    if a.toNat < b.toNat then true
    else if a.toNat = b.toNat then charsLt as bs
    else false

/-- Strict code-point order on strings. -/
def strLt (a b : String) : Bool := charsLt a.data b.data

/-- Non-strict code-point order on strings. -/
def strLe (a b : String) : Bool := !(strLt b a)

/-- Unique category keys in ascending order: pandas `groupby(col)` sorts
its group keys ascending (`sort=True` default). -/
def sortedCats (l : List String) : List String :=
  isortBy strLe (firstUniq l)

/-- One row of the input to `services.analyze_cashback_categories`:
the four required fields (`none` = unparseable operation date / `NaT`). -/
structure SRow where
  opDate : Option Timestamp
  category : String
  amount : ℚ
  cashback : ℚ
deriving DecidableEq

/-- Input table of `services.analyze_cashback_categories`, with presence
flags for the four validated columns. -/
structure STable where
  hasOpDate : Bool
  hasCategory : Bool
  hasAmount : Bool
  hasCashback : Bool
  rows : List SRow
deriving DecidableEq

/-- The rows kept by the vectorized filter: operation date parses and lies
in the target year and month, and the amount is negative. -/
def cbMatchedRows (t : STable) (y m : ℕ) : List SRow :=
  t.rows.filter (fun r =>
    match r.opDate with
    | some ts => ts.year == y && ts.month == m && decide (r.amount < 0)
    | none => false)

/-- Signed amount sum of the matched rows of one category. -/
def catAmountSum (l : List SRow) (c : String) : ℚ :=
  ((l.filter (fun r => r.category == c)).map SRow.amount).sum

/-- The grouped aggregation `groupby("Категория")["Сумма платежа"].sum()
.abs().mul(0.01).round(2)`: ascending category keys, each mapped to the
rounded 1% of the absolute amount sum. -/
def cashbackGroups (t : STable) (y m : ℕ) : List (String × ℚ) :=
  (sortedCats ((cbMatchedRows t y m).map SRow.category)).map
    (fun c => (c, round2 (|catAmountSum (cbMatchedRows t y m) c| * (1/100))))

/-- Model of `services.analyze_cashback_categories`: a missing required
column raises `ValueError` (re-raised by the handler), modelled as
`Except.error`; no matching rows yields the JSON text of an empty mapping,
modelled `.ok []`; otherwise the grouped aggregation is sorted by
descending cashback (`sort_values(ascending=False)`, see `sortValsDesc`)
and returned as the insertion-ordered mapping behind the JSON text. -/
def analyze_cashback_categories (t : STable) (y m : ℕ) :
    Except String (List (String × ℚ)) :=
  if !(t.hasOpDate && t.hasCategory && t.hasAmount && t.hasCashback) then
    .error "В данных отсутствуют колонки"
  else if cbMatchedRows t y m = [] then .ok []
  else .ok (sortValsDesc (cashbackGroups t y m))

/-- Replace every row's recorded `Кешбэк` field via `f`, leaving all other
fields alone: used to state that the analysis ignores that field. -/
def mapCashbackField (f : ℚ → ℚ) (t : STable) : STable :=
  { t with rows := t.rows.map (fun r => { r with cashback := f r.cashback }) }

/-- Zero-padded two-digit rendering used by `strftime("%d"/"%m")`. -/
def pad2 (n : ℕ) : String := if n < 10 then "0" ++ Nat.repr n else Nat.repr n

/-- Zero-padded four-digit rendering used by `strftime("%Y")`. -/
def pad4 (n : ℕ) : String :=
  if n < 10 then "000" ++ Nat.repr n
  else if n < 100 then "00" ++ Nat.repr n
  else if n < 1000 then "0" ++ Nat.repr n
  else Nat.repr n

/-- Rendering of a timestamp by `strftime("%d.%m.%Y")`. -/
def fmtDMYdots (t : Timestamp) : String :=
  pad2 t.day ++ "." ++ pad2 t.month ++ "." ++ pad4 t.year

/-- Model of `utils.get_greeting`: bucket the hour of day. -/
def get_greeting (t : Timestamp) : String :=
  if 5 ≤ t.hour ∧ t.hour < 12 then "Доброе утро"
  else if 12 ≤ t.hour ∧ t.hour < 18 then "Добрый день"
  else if 18 ≤ t.hour ∧ t.hour < 23 then "Добрый вечер"
  else "Доброй ночи"

/-- Model of `utils.get_exchange_rate`: no/empty API key is falsy and
yields `None`; a failed HTTP request (`RequestException`, the `Except.error`
case of `fetched`) yields `None`; otherwise the raw rate for the currency
is looked up in the response and `if rate:` admits it only when present
and nonzero, in which case `round(1/rate, 4)` is returned. -/
def get_exchange_rate (apiKey : Option String)
    (fetched : Except Unit (String → Option ℚ)) (currency : String) : Option ℚ :=
  match apiKey with
  | none => none
  | some k =>
    if k = "" then none
    else
      match fetched with
      | .error _ => none
      | .ok rates =>
        match rates currency with
        | none => none
        | some r => if r = 0 then none else some (round4 (1 / r))

/-- Ordering of timestamps (the order pandas uses on datetime values),
lexicographic on the six calendar fields. -/
def tsLe (a b : Timestamp) : Bool :=
  if a.year ≠ b.year then decide (a.year < b.year)
  else if a.month ≠ b.month then decide (a.month < b.month)
  else if a.day ≠ b.day then decide (a.day < b.day)
  else if a.hour ≠ b.hour then decide (a.hour < b.hour)
  else if a.minute ≠ b.minute then decide (a.minute < b.minute)
  else decide (a.second ≤ b.second)

/-- `date.replace(day=1, hour=0, minute=0, second=0, microsecond=0)`. -/
def startOfMonth (t : Timestamp) : Timestamp := ⟨t.year, t.month, 1, 0, 0, 0⟩

/-- One row of the table consumed by `views.py`: operation date (already
datetime-typed by the loader), operation amount, category, description and
the masked card number (`none` = `NaN`). -/
structure VRow where
  opDate : Timestamp
  amount : ℚ
  category : String
  description : String
  card : Option String
deriving DecidableEq

/-- Model of `utils.filter_transactions_by_date`: keep rows with
`start_of_month <= Дата операции <= date`, inclusive. -/
def filter_transactions_by_date (df : List VRow) (date : Timestamp) : List VRow :=
  df.filter (fun r => tsLe (startOfMonth date) r.opDate && tsLe r.opDate date)

/-- One per-card summary entry of the dashboard. -/
structure CardInfo where
  last_digits : String
  total_spent : ℚ
  cashback : ℚ
deriving DecidableEq

/-- `str(card_number).replace("*", "")[-4:]`. -/
def lastDigits (c : String) : String :=
  ⟨((c.data.filter (fun ch => !(ch == '*'))).reverse.take 4).reverse⟩

/-- Model of `views.get_cards_info`: empty frame yields `[]`; otherwise
iterate the first-occurrence-unique card numbers, skipping `NaN` and empty
strings, and for each card sum its negative operation amounts, reporting
`round(abs(expenses), 2)` spent and `round(abs(expenses) * 0.01, 2)`
cashback with the last four non-`*` characters as the card id. -/
def get_cards_info (df : List VRow) : List CardInfo :=
  if df = [] then []
  else
    (firstUniq (df.map VRow.card)).filterMap (fun cardNum =>
      match cardNum with
      | none => none
      | some c =>
        if c = "" then none
        else
          let cardDf := df.filter (fun r => r.card == some c)
          let expenses := ((cardDf.filter (fun r => decide (r.amount < 0))).map VRow.amount).sum
          some ⟨lastDigits c, round2 |expenses|, round2 (|expenses| * (1/100))⟩)

/-- One top-transaction entry of the dashboard. -/
structure TxInfo where
  date : String
  amount : ℚ
  category : String
  description : String
deriving DecidableEq

/-- Model of `views.get_top_transactions`: empty frame yields `[]`;
otherwise the five expense rows largest by absolute amount
(`nlargest(5, "abs_sum")`, descending with ties kept in first-occurrence
order), each rendered with its `DD.MM.YYYY` date and absolute amount. -/
def get_top_transactions (df : List VRow) : List TxInfo :=
  if df = [] then []
  else
    let expenses := df.filter (fun r => decide (r.amount < 0))
    ((isortBy (fun a b : VRow => decide (|b.amount| ≤ |a.amount|)) expenses).take 5).map
      (fun r => ⟨fmtDMYdots r.opDate, round2 |r.amount|, r.category, r.description⟩)

/-- Model of `views.get_currency_rates`: one lookup per requested code;
`if rate:` keeps only a present and nonzero result. -/
def get_currency_rates (lookup : String → Option ℚ) (currencies : List String) :
    List (String × ℚ) :=
  currencies.filterMap (fun c =>
    match lookup c with
    | none => none
    | some r => if r = 0 then none else some (c, r))

/-- Model of `views.get_stock_prices`: one lookup per requested symbol;
`if price:` keeps only a present and nonzero result. -/
def get_stock_prices (lookup : String → Option ℚ) (stocks : List String) :
    List (String × ℚ) :=
  stocks.filterMap (fun s =>
    match lookup s with
    | none => none
    | some p => if p = 0 then none else some (s, p))

/-- The expenses summary block of the dashboard. -/
structure ExpInfo where
  total : ℚ
  average : ℚ
  by_category : List (String × ℚ)
deriving DecidableEq

/-- Per-category sums of absolute amounts for a list of expense rows. -/
def vCatGroups (expenses : List VRow) : List (String × ℚ) :=
  (sortedCats (expenses.map VRow.category)).map
    (fun c => (c, ((expenses.filter (fun r => r.category == c)).map
      (fun r => |r.amount|)).sum))

/-- Model of `views.get_expenses_info`: empty frame yields the zero block;
otherwise total and mean of absolute expense amounts (rounded to 2) and
the top three categories by (unrounded) spend, descending
(`sort_values(ascending=False).head(3)`), each rounded on output. -/
def get_expenses_info (df : List VRow) : ExpInfo :=
  if df = [] then ⟨0, 0, []⟩
  else
    let expenses := df.filter (fun r => decide (r.amount < 0))
    let absSums := expenses.map (fun r => |r.amount|)
    let avg : ℚ := if expenses = [] then 0 else listMean absSums
    ⟨round2 absSums.sum, round2 avg,
     ((sortValsDesc (vCatGroups expenses)).take 3).map (fun p => (p.1, round2 p.2))⟩

/-- The dashboard entry point's result: either the error payload
`{"error": ...}` or the assembled page object. -/
inductive ViewResult where
  | errPayload (msg : String)
  | page (greeting : String) (cards : List CardInfo) (topTx : List TxInfo)
      (rates : List (String × ℚ)) (stocks : List (String × ℚ)) (expenses : ExpInfo)
deriving DecidableEq

/-- Model of `views.main_page_view`: parse the date string with
`strptime(.., "%Y-%m-%d %H:%M:%S")` (failure: the date-format error
payload); an empty loaded table yields the no-data error payload before
any filtering; otherwise the month-to-date filtered table feeds the
assembled page, alongside the per-symbol currency/stock lookups for the
user's settings. -/
def main_page_view (dateStr : String) (table : List VRow)
    (userCurrencies userStocks : List String)
    (rateLookup stockLookup : String → Option ℚ) : ViewResult :=
  match strptimeYMDHMS dateStr with
  | none => .errPayload "Неверный формат даты"
  | some currentDate =>
    if table = [] then .errPayload "Нет данных о транзакциях"
    else
      let filtered := filter_transactions_by_date table currentDate
      .page (get_greeting currentDate) (get_cards_info filtered)
        (get_top_transactions filtered)
        (get_currency_rates rateLookup userCurrencies)
        (get_stock_prices stockLookup userStocks)
        (get_expenses_info filtered)

/-- A table cell of a `DataFrame` report result: either an ordinary value
or a datetime-typed value carrying its calendar fields. -/
inductive Cell where
  | val (j : JVal)
  | dt (day month year : ℕ)

/-- A report operation's return value, by serialization branch of
`report_to_file`: a `DataFrame`, a dict/list, or anything else. -/
inductive ReportVal where
  | table (rows : List (List (String × Cell)))
  | mapping (j : JVal)
  | other (s : String)

/-- Datetime cells are rendered `strftime("%d.%m.%Y")`; other cells pass
through. -/
def fmtCell : Cell → JVal
  | .val j => j
  | .dt d m y => .str (pad2 d ++ "." ++ pad2 m ++ "." ++ pad4 y)

/-- The written artifact: a `DataFrame` becomes its record list (empty
frame: the empty array), a dict/list is serialized directly, anything
else as its text representation. -/
inductive Artifact where
  | records (rs : List (List (String × JVal)))
  | direct (j : JVal)
  | text (s : String)

/-- The serialization step of `report_to_file`, by result type. -/
def serializeReport : ReportVal → Artifact
  | .table rows => .records (rows.map (fun row => row.map (fun p => (p.1, fmtCell p.2))))
  | .mapping j => .direct j
  | .other s => .text s

/-- File-name selection of `report_to_file`: an explicit name gets a
`.json` suffix appended when missing; otherwise
`report_<operation-name>_<timestamp>.json`. -/
def outputFilename (filename : Option String) (funcName timestamp : String) : String :=
  match filename with
  | none => "report_" ++ funcName ++ "_" ++ timestamp ++ ".json"
  | some f => if f.endsWith ".json" then f else f ++ ".json"

/-- File-system state threaded through the persistence wrapper. -/
structure FState where
  files : List (String × Artifact)
  dirs : List String

/-- Model of the decorator `reports.report_to_file`: the wrapped operation
runs first and its result is captured; then, inside `try/except`, the
reports directory is created and the serialized result written, either
step free to fail (`false` success flag = a raised exception, which the
`except` swallows after logging); the captured result is returned
regardless. -/
def report_to_file (filename : Option String) (funcName timestamp : String)
    (mkdirOp : FState → FState × Bool)
    (writeOp : String → Artifact → FState → FState × Bool)
    (func : α → ReportVal) (a : α) (fs : FState) : ReportVal × FState :=
  let result := func a
  let (fs1, ok1) := mkdirOp fs
  if !ok1 then (result, fs1)
  else
    let path := "reports/" ++ outputFilename filename funcName timestamp
    let (fs2, _ok2) := writeOp path (serializeReport result) fs1
    (result, fs2)

/-! Helper lemmas about rounding. -/

/-- Half-even rounding moves a value by at most one half. -/
theorem roundHalfEven_close (q : ℚ) : |(roundHalfEven q : ℚ) - q| ≤ 1/2 := by
  have h0 : ((⌊q⌋ : ℤ) : ℚ) ≤ q := Int.floor_le q
  have h1 : q < ((⌊q⌋ : ℤ) : ℚ) + 1 := Int.lt_floor_add_one q
  simp only [roundHalfEven]
  split_ifs with hlt hgt hev
  · rw [abs_sub_comm, abs_of_nonneg (by linarith)]
    linarith
  · push_cast
    rw [abs_of_nonneg (by linarith)]
    linarith
  · have htie : q - ((⌊q⌋ : ℤ) : ℚ) = 1/2 := le_antisymm (not_lt.mp hgt) (not_lt.mp hlt)
    rw [abs_sub_comm, abs_of_nonneg (by linarith)]
    linarith
  · have htie : q - ((⌊q⌋ : ℤ) : ℚ) = 1/2 := le_antisymm (not_lt.mp hgt) (not_lt.mp hlt)
    push_cast
    rw [abs_of_nonneg (by linarith)]
    linarith

/-- Rounding to two decimals moves a value by at most `1/200`. -/
theorem round2_close (q : ℚ) : |round2 q - q| ≤ 1/200 := by
  have h := roundHalfEven_close (q * 100)
  have hrw : round2 q - q = ((roundHalfEven (q * 100) : ℚ) - q * 100) / 100 := by
    simp only [round2]
    ring
  rw [hrw, abs_div, abs_of_pos (show (0:ℚ) < 100 by norm_num)]
  rw [div_le_div_iff₀ (by norm_num) (by norm_num)]
  linarith

/-- Rounding fixes zero. -/
theorem round2_zero : round2 0 = 0 := by
  norm_num [round2, roundHalfEven]

/-- Rounding to two decimals fixes every integer multiple of `1/100`. -/
theorem round2_hundredth (k : ℤ) : round2 ((k : ℚ) / 100) = (k : ℚ) / 100 := by
  have hq : ((k : ℚ) / 100) * 100 = (k : ℚ) := by
    field_simp
  simp only [round2, hq]
  rw [show ((k : ℚ)) = ((k : ℤ) : ℚ) by norm_num] at hq ⊢
  simp [roundHalfEven, Int.floor_intCast]

/-! Claim C6: the date window. -/

/-- Claim C6 (counterexample): the claim quantifies over every integer
month count, but for a negative count the window start lies after its
end: at `end = 0`, `months = -1`, `_get_date_range` yields
`start = 30 > 0 = end`. -/
theorem claim_C6_cex :
    ¬ ((get_date_range 0 (-1)).1 ≤ (get_date_range 0 (-1)).2) := by
  norm_num [get_date_range]

/-- Claim C6 (amended): for every end date and every nonnegative month
count, `_get_date_range` yields `start ≤ end` with
`end − start = months × 30` days exactly (day-based arithmetic), and the
window mask used by the report aggregations accepts both endpoints
(inclusive on both ends). -/
theorem claim_C6 (e : ℚ) (months : ℤ) (h : 0 ≤ months) :
    (get_date_range e months).1 ≤ (get_date_range e months).2 ∧
    (get_date_range e months).2 - (get_date_range e months).1 = (months : ℚ) * 30 ∧
    inWindow (get_date_range e months).1 (get_date_range e months).2
      (get_date_range e months).1 = true ∧
    inWindow (get_date_range e months).1 (get_date_range e months).2
      (get_date_range e months).2 = true := by
  have hm : (0 : ℚ) ≤ (months : ℚ) * 30 := by
    have : (0 : ℚ) ≤ (months : ℚ) := by exact_mod_cast h
    linarith
  refine ⟨by simp [get_date_range]; linarith, by simp [get_date_range], ?_, ?_⟩ <;>
    simp [get_date_range, inWindow] <;> linarith

/-- Claim C6 witness: the amended statement at `end = 5`, `months = 3`. -/
theorem claim_C6_witness :
    (get_date_range 5 3).1 ≤ (get_date_range 5 3).2 ∧
    (get_date_range 5 3).2 - (get_date_range 5 3).1 = ((3 : ℤ) : ℚ) * 30 ∧
    inWindow (get_date_range 5 3).1 (get_date_range 5 3).2 (get_date_range 5 3).1 = true ∧
    inWindow (get_date_range 5 3).1 (get_date_range 5 3).2 (get_date_range 5 3).2 = true :=
  claim_C6 5 3 (by norm_num)

/-! Claim C8: value transparency of the persistence wrapper. -/

/-- Claim C8: the persistence wrapper is value-transparent: whatever the
file-system effects do — including failing at the directory-creation or
the write step — the wrapped call returns exactly the wrapped operation's
result, and no failure escapes (the wrapper's result type carries no
error case). -/
theorem claim_C8 (α : Type) (filename : Option String) (funcName timestamp : String)
    (mkdirOp : FState → FState × Bool)
    (writeOp : String → Artifact → FState → FState × Bool)
    (func : α → ReportVal) (a : α) (fs : FState) :
    (report_to_file filename funcName timestamp mkdirOp writeOp func a fs).1 = func a := by
  simp only [report_to_file]
  rcases mkdirOp fs with ⟨fs1, ok1⟩
  cases ok1
  · rfl
  · rcases writeOp ("reports/" ++ outputFilename filename funcName timestamp)
      (serializeReport (func a)) fs1 with ⟨fs2, ok2⟩
    rfl

/-! Claim C9: zero results are dropped by the truthiness checks. -/

/-- Turn a lookup's zero results into absent results: the observational
equivalence the truthiness checks create. -/
def zeroToNone (lookup : String → Option ℚ) : String → Option ℚ :=
  fun c => (lookup c).bind (fun r => if r = 0 then none else some r)

/-- Claim C9: in the enrichment lists a successful lookup returning `0` is
omitted exactly as if the lookup had failed — the output is unchanged when
every zero result is replaced by an absent one — and `get_exchange_rate`
turns a zero raw rate into `None`. -/
theorem claim_C9 :
    (∀ (lookup : String → Option ℚ) (l : List String),
      get_currency_rates lookup l = get_currency_rates (zeroToNone lookup) l) ∧
    (∀ (lookup : String → Option ℚ) (l : List String),
      get_stock_prices lookup l = get_stock_prices (zeroToNone lookup) l) ∧
    (∀ (key : String) (rates : String → Option ℚ) (c : String),
      rates c = some 0 → get_exchange_rate (some key) (.ok rates) c = none) := by
  refine ⟨?_, ?_, ?_⟩
  · intro lookup l
    unfold get_currency_rates
    congr 1
    funext c
    cases h : lookup c with
    | none => simp [zeroToNone, h]
    | some r =>
      by_cases hr : r = 0 <;> simp [zeroToNone, h, hr]
  · intro lookup l
    unfold get_stock_prices
    congr 1
    funext s
    cases h : lookup s with
    | none => simp [zeroToNone, h]
    | some p =>
      by_cases hp : p = 0 <;> simp [zeroToNone, h, hp]
  · intro key rates c h
    unfold get_exchange_rate
    by_cases hk : key = "" <;> simp [hk, h]

/-- Claim C9 witness: a lookup that returns rate `0` yields an absent
exchange rate. -/
theorem claim_C9_witness :
    get_exchange_rate (some "k") (.ok (fun _ => some 0)) "USD" = none :=
  claim_C9.2.2 "k" (fun _ => some 0) "USD" rfl

/-! Claim C5: the cashback analyzer's two failure policies. -/

/-- Claim C5: `analyze_cashback_categories` signals a hard error exactly
when one of the four required columns is absent, while a well-formed input
with no matching rows returns the empty mapping — an outcome
distinguishable from the error. -/
theorem claim_C5 (t : STable) (y m : ℕ) :
    ((∃ msg, analyze_cashback_categories t y m = .error msg) ↔
      ¬ ((t.hasOpDate && t.hasCategory && t.hasAmount && t.hasCashback) = true)) ∧
    ((t.hasOpDate && t.hasCategory && t.hasAmount && t.hasCashback) = true →
      cbMatchedRows t y m = [] → analyze_cashback_categories t y m = .ok []) := by
  unfold analyze_cashback_categories
  by_cases hc : (t.hasOpDate && t.hasCategory && t.hasAmount && t.hasCashback) = true
  · by_cases hm : cbMatchedRows t y m = [] <;> simp [hc, hm]
  · have hb : (t.hasOpDate && t.hasCategory && t.hasAmount && t.hasCashback) = false :=
      Bool.eq_false_iff.mpr hc
    simp [hb]

/-- Claim C5 witness: a full-columned table whose only row is an income
row yields the empty mapping, not an error. -/
theorem claim_C5_witness :
    analyze_cashback_categories
      ⟨true, true, true, true, [⟨some ⟨2024, 1, 5, 0, 0, 0⟩, "Переводы", 5, 0⟩]⟩
      2024 1 = .ok [] :=
  (claim_C5 ⟨true, true, true, true,
      [⟨some ⟨2024, 1, 5, 0, 0, 0⟩, "Переводы", 5, 0⟩]⟩ 2024 1).2
    (by decide) (by decide)

/-! Claim C7: the date-string resolution policy. -/

/-- Claim C7: `_parse_date` never raises (it is a total function); an
absent input yields the current date/time; the four formats are tried in
source order with the first success winning; and an input matching no
format also yields the current date/time, indistinguishable from the
absent-input case. -/
theorem claim_C7 :
    (∀ now, parse_date none now = now) ∧
    (∀ s now, strptimeDMY s = none → strptimeYMD s = none → strptimeDMYHMS s = none →
      strptimeYMDHMS s = none →
      parse_date (some s) now = now ∧ parse_date (some s) now = parse_date none now) ∧
    (∀ s t now, strptimeDMY s = some t → parse_date (some s) now = t) ∧
    (∀ s t now, strptimeDMY s = none → strptimeYMD s = some t →
      parse_date (some s) now = t) ∧
    (∀ s t now, strptimeDMY s = none → strptimeYMD s = none →
      strptimeDMYHMS s = some t → parse_date (some s) now = t) ∧
    (∀ s t now, strptimeDMY s = none → strptimeYMD s = none →
      strptimeDMYHMS s = none → strptimeYMDHMS s = some t →
      parse_date (some s) now = t) := by
  refine ⟨fun now => rfl, ?_, ?_, ?_, ?_, ?_⟩
  · intro s now h1 h2 h3 h4
    constructor <;>
      simp [parse_date, dateFormats, List.findSome?_cons, h1, h2, h3, h4]
  · intro s t now h1
    simp [parse_date, dateFormats, List.findSome?_cons, h1]
  · intro s t now h1 h2
    simp [parse_date, dateFormats, List.findSome?_cons, h1, h2]
  · intro s t now h1 h2 h3
    simp [parse_date, dateFormats, List.findSome?_cons, h1, h2, h3]
  · intro s t now h1 h2 h3 h4
    simp [parse_date, dateFormats, List.findSome?_cons, h1, h2, h3, h4]

/-- Claim C7 witness: `"2024-06-15"` misses the first format, parses under
the second, and wins there. -/
theorem claim_C7_witness :
    parse_date (some "2024-06-15") ⟨2030, 1, 1, 0, 0, 0⟩ = ⟨2024, 6, 15, 0, 0, 0⟩ :=
  claim_C7.2.2.2.1 "2024-06-15" ⟨2024, 6, 15, 0, 0, 0⟩ ⟨2030, 1, 1, 0, 0, 0⟩
    (by decide) (by decide)

/-! Claim C1: the shape of the workday/weekend report. -/

/-- An input table with the required columns and no rows: its window is
empty. -/
def tblC1empty : RTable := ⟨true, false, true, []⟩

/-- An input table with one workday expense row inside the window. -/
def tblC1one : RTable := ⟨true, false, true, [⟨some 0, none, -1⟩]⟩

/-- Claim C1 (amended): given the required columns, `spending_by_workday`
always emits both partitions and a comparison block; within a non-empty
window a partition with no matching rows is zero-filled with the same five
per-partition fields as the populated one; but the empty-window result has
a different shape: English top-level keys, four differently named
per-partition fields, and a ratio-only comparison. -/
theorem claim_C1 (t : RTable) (e : ℚ) (hA : t.hasAmount = true)
    (hD : t.hasOpDate = true ∨ t.hasPayDate = true) :
    (windowRows t e = [] → spending_by_workday t e = emptyWindowResult) ∧
    (windowRows t e ≠ [] →
      spending_by_workday t e = fullResult (wkStats t e) (weStats t e) ∧
      jKeys (spending_by_workday t e) = ["рабочие_дни", "выходные_дни", "сравнение"] ∧
      (wkRows t e = [] → wkStats t e = zeroPart) ∧
      (weRows t e = [] → weStats t e = zeroPart) ∧
      jKeys (partJ (wkStats t e)) =
        ["total_spent", "avg_spent_per_day", "avg_spent_per_transaction",
         "transaction_count", "days_count"] ∧
      jKeys (partJ (weStats t e)) =
        ["total_spent", "avg_spent_per_day", "avg_spent_per_transaction",
         "transaction_count", "days_count"]) := by
  have hcol : (t.hasOpDate || t.hasPayDate) = true := by
    rcases hD with h | h <;> simp [h]
  constructor
  · intro hw
    simp [spending_by_workday, hA, hcol, hw]
  · intro hw
    refine ⟨by simp [spending_by_workday, hA, hcol, hw], ?_, ?_, ?_, rfl, rfl⟩
    · simp [spending_by_workday, hA, hcol, hw, fullResult, jKeys]
    · intro h
      simp [wkStats, partStats, h]
    · intro h
      simp [weStats, partStats, h]

/-- Claim C1 (counterexample): the result shape is NOT the same for an
empty and a non-empty window: the top-level keys differ (English versus
Russian) and the per-partition field sets differ (four fields versus
five), refuting the claim's same-shape and same-fields clauses. -/
theorem claim_C1_cex :
    jKeys (spending_by_workday tblC1empty 10) = ["workday", "weekend", "comparison"] ∧
    jKeys (spending_by_workday tblC1one 10) = ["рабочие_дни", "выходные_дни", "сравнение"] ∧
    jKeys (spending_by_workday tblC1empty 10) ≠ jKeys (spending_by_workday tblC1one 10) ∧
    (jGet (spending_by_workday tblC1empty 10) "workday").map jKeys =
      some ["total_spent", "avg_spent", "transactions", "days"] ∧
    (jGet (spending_by_workday tblC1one 10) "рабочие_дни").map jKeys =
      some ["total_spent", "avg_spent_per_day", "avg_spent_per_transaction",
        "transaction_count", "days_count"] := by
  have hone : spending_by_workday tblC1one 10 =
      fullResult (wkStats tblC1one 10) (weStats tblC1one 10) := by
    norm_num [spending_by_workday, tblC1one, windowRows, get_date_range, inWindow, dateOf]
  have hemp : spending_by_workday tblC1empty 10 = emptyWindowResult := rfl
  refine ⟨rfl, ?_, ?_, rfl, ?_⟩
  · rw [hone]; rfl
  · rw [hone, hemp]; decide
  · rw [hone]; rfl

/-- Claim C1 witness: the amended statement at the one-row table. -/
theorem claim_C1_witness :
    (windowRows tblC1one 10 = [] → spending_by_workday tblC1one 10 = emptyWindowResult) ∧
    (windowRows tblC1one 10 ≠ [] →
      spending_by_workday tblC1one 10 = fullResult (wkStats tblC1one 10) (weStats tblC1one 10) ∧
      jKeys (spending_by_workday tblC1one 10) = ["рабочие_дни", "выходные_дни", "сравнение"] ∧
      (wkRows tblC1one 10 = [] → wkStats tblC1one 10 = zeroPart) ∧
      (weRows tblC1one 10 = [] → weStats tblC1one 10 = zeroPart) ∧
      jKeys (partJ (wkStats tblC1one 10)) =
        ["total_spent", "avg_spent_per_day", "avg_spent_per_transaction",
         "transaction_count", "days_count"] ∧
      jKeys (partJ (weStats tblC1one 10)) =
        ["total_spent", "avg_spent_per_day", "avg_spent_per_transaction",
         "transaction_count", "days_count"]) :=
  claim_C1 tblC1one 10 rfl (Or.inl rfl)

/-! Claim C10: the dashboard's empty-table error policy. -/

/-- Claim C10: with a parseable date string, an empty loaded table makes
`main_page_view` return the error payload — before any filtering — while a
non-empty table whose month window matches no rows yields a dashboard with
empty cards and top-transactions lists and a zeroed expenses block. -/
theorem claim_C10 (dateStr : String) (t : Timestamp)
    (uc us : List String) (rl sl : String → Option ℚ)
    (hp : strptimeYMDHMS dateStr = some t) :
    main_page_view dateStr [] uc us rl sl = .errPayload "Нет данных о транзакциях" ∧
    (∀ (table : List VRow), table ≠ [] →
      (∀ r ∈ table, (tsLe (startOfMonth t) r.opDate && tsLe r.opDate t) = false) →
      main_page_view dateStr table uc us rl sl =
        .page (get_greeting t) [] [] (get_currency_rates rl uc) (get_stock_prices sl us)
          ⟨0, 0, []⟩) := by
  constructor
  · simp [main_page_view, hp]
  · intro table hne hmiss
    have hf : filter_transactions_by_date table t = [] := by
      rw [filter_transactions_by_date, List.filter_eq_nil_iff]
      intro r hr
      simp [hmiss r hr]
    simp [main_page_view, hp, hne, hf, get_cards_info, get_top_transactions,
      get_expenses_info]

/-- Claim C10 witness: a May-dated row against a June as-of date yields
the zero-filled dashboard, not an error. -/
theorem claim_C10_witness :
    main_page_view "2024-06-15 12:00:00"
      [⟨⟨2024, 5, 1, 0, 0, 0⟩, -5, "Еда", "обед", none⟩]
      ["USD"] ["AAPL"] (fun _ => none) (fun _ => none) =
      .page (get_greeting ⟨2024, 6, 15, 12, 0, 0⟩) [] []
        (get_currency_rates (fun _ => none) ["USD"])
        (get_stock_prices (fun _ => none) ["AAPL"]) ⟨0, 0, []⟩ :=
  (claim_C10 "2024-06-15 12:00:00" ⟨2024, 6, 15, 12, 0, 0⟩ ["USD"] ["AAPL"]
      (fun _ => none) (fun _ => none) (by decide)).2
    [⟨⟨2024, 5, 1, 0, 0, 0⟩, -5, "Еда", "обед", none⟩] (by decide) (by decide)

/-! Claim C2: the comparison block of the workday/weekend report. -/

/-- A table with one workday expense (`-1`, Monday day 0) and one weekend
expense (`-3`, Saturday day 5) inside the window ending at day 10. -/
def tblC2 : RTable := ⟨true, false, true, [⟨some 0, none, -1⟩, ⟨some 5, none, -3⟩]⟩

/-- Claim C2 (amended): for a window holding at least one expense row, the
two percentages sum to 100 within rounding whenever the combined total is
positive and are both 0 when it is 0; the stored ratio equals the
workday-per-day average divided by the weekend-per-day average rounded to
two decimals, and 0 when the weekend average is 0. -/
theorem claim_C2 (t : RTable) (e : ℚ) (hA : t.hasAmount = true)
    (hD : t.hasOpDate = true ∨ t.hasPayDate = true)
    (hne : windowRows t e ≠ []) :
    ((wkStats t e).total_spent + (weStats t e).total_spent > 0 →
      |(compStats t e).workday_percent + (compStats t e).weekend_percent - 100| ≤ 1/100) ∧
    ((wkStats t e).total_spent + (weStats t e).total_spent = 0 →
      (compStats t e).workday_percent = 0 ∧ (compStats t e).weekend_percent = 0) ∧
    ((weStats t e).avg_spent_per_day > 0 →
      (compStats t e).ratio_ww =
        round2 ((wkStats t e).avg_spent_per_day / (weStats t e).avg_spent_per_day)) ∧
    ((weStats t e).avg_spent_per_day = 0 → (compStats t e).ratio_ww = 0) ∧
    spending_by_workday t e = fullResult (wkStats t e) (weStats t e) := by
  have hcol : (t.hasOpDate || t.hasPayDate) = true := by
    rcases hD with h | h <;> simp [h]
  refine ⟨?_, ?_, ?_, ?_, by simp [spending_by_workday, hA, hcol, hne]⟩
  · intro hpos
    set W := (wkStats t e).total_spent with hW
    set E := (weStats t e).total_spent with hE
    have hq : W / (W + E) * 100 + E / (W + E) * 100 = 100 := by
      field_simp
      ring
    have h1 := round2_close (W / (W + E) * 100)
    have h2 := round2_close (E / (W + E) * 100)
    have habs := abs_add (round2 (W / (W + E) * 100) - W / (W + E) * 100)
      (round2 (E / (W + E) * 100) - E / (W + E) * 100)
    simp only [compStats, mkComparison, if_pos hpos]
    have hrw : round2 (W / (W + E) * 100) + round2 (E / (W + E) * 100) - 100 =
        (round2 (W / (W + E) * 100) - W / (W + E) * 100) +
        (round2 (E / (W + E) * 100) - E / (W + E) * 100) := by
      linarith [hq]
    rw [hrw]
    calc |(round2 (W / (W + E) * 100) - W / (W + E) * 100) +
          (round2 (E / (W + E) * 100) - E / (W + E) * 100)| ≤ _ := habs
      _ ≤ 1/200 + 1/200 := add_le_add h1 h2
      _ = 1/100 := by norm_num
  · intro hz
    have hn : ¬ ((wkStats t e).total_spent + (weStats t e).total_spent > 0) := by
      rw [hz]; exact lt_irrefl 0
    simp only [compStats, mkComparison, if_neg hn]
    exact ⟨round2_zero, round2_zero⟩
  · intro hpos
    simp only [compStats, mkComparison, if_pos hpos]
  · intro hz
    have hn : ¬ ((weStats t e).avg_spent_per_day > 0) := by
      rw [hz]; exact lt_irrefl 0
    simp only [compStats, mkComparison, if_neg hn]
    exact round2_zero

/-- The workday partition of `tblC2` evaluates to all-ones statistics. -/
theorem tblC2_wkStats : wkStats tblC2 10 = ⟨1, 1, 1, 1, 1⟩ := by
  have h : wkRows tblC2 10 = [(0, -1)] := by
    norm_num [wkRows, windowRows, tblC2, get_date_range, inWindow, dateOf, wdayOf,
      List.filter_cons, List.filterMap_cons, Bool.and_eq_true, decide_eq_true_eq]
  rw [wkStats, h]
  norm_num [partStats, round2, roundHalfEven, listMean, abs_of_nonpos]

/-- The weekend partition of `tblC2` evaluates to all-threes statistics. -/
theorem tblC2_weStats : weStats tblC2 10 = ⟨3, 3, 3, 1, 1⟩ := by
  have h : weRows tblC2 10 = [(5, -3)] := by
    norm_num [weRows, windowRows, tblC2, get_date_range, inWindow, dateOf, wdayOf,
      List.filter_cons, List.filterMap_cons, Bool.and_eq_true, decide_eq_true_eq]
  rw [weStats, h]
  norm_num [partStats, round2, roundHalfEven, listMean, abs_of_nonpos]

/-- Claim C2 (counterexample): with per-day averages 1 and 3 the stored
ratio is `round(1/3, 2) = 0.33`, not the exact quotient `1/3`: the stored
value is the quotient rounded to two decimals. -/
theorem claim_C2_cex :
    (compStats tblC2 10).ratio_ww ≠
      (wkStats tblC2 10).avg_spent_per_day / (weStats tblC2 10).avg_spent_per_day := by
  rw [compStats, tblC2_wkStats, tblC2_weStats]
  norm_num [mkComparison, round2, roundHalfEven]

/-- Claim C2 witness: the amended statement at `tblC2`, whose window holds
two expense rows. -/
theorem claim_C2_witness :
    ((wkStats tblC2 10).total_spent + (weStats tblC2 10).total_spent > 0 →
      |(compStats tblC2 10).workday_percent + (compStats tblC2 10).weekend_percent - 100|
        ≤ 1/100) ∧
    ((wkStats tblC2 10).total_spent + (weStats tblC2 10).total_spent = 0 →
      (compStats tblC2 10).workday_percent = 0 ∧ (compStats tblC2 10).weekend_percent = 0) ∧
    ((weStats tblC2 10).avg_spent_per_day > 0 →
      (compStats tblC2 10).ratio_ww =
        round2 ((wkStats tblC2 10).avg_spent_per_day / (weStats tblC2 10).avg_spent_per_day)) ∧
    ((weStats tblC2 10).avg_spent_per_day = 0 → (compStats tblC2 10).ratio_ww = 0) ∧
    spending_by_workday tblC2 10 = fullResult (wkStats tblC2 10) (weStats tblC2 10) :=
  claim_C2 tblC2 10 rfl (Or.inl rfl)
    (by norm_num +decide [windowRows, tblC2, get_date_range, inWindow, dateOf,
      List.filter_cons, List.filterMap_cons, Bool.and_eq_true, decide_eq_true_eq])

/-! Claim C3: the weekday report's totals, ordering and omission. -/

/-- Every weekday index is below 7. -/
theorem wdayOf_lt (d : ℚ) : wdayOf d < 7 := by
  have h1 : ⌊d⌋ % 7 < 7 := Int.emod_lt_of_pos _ (by norm_num)
  exact (Int.toNat_lt' (by norm_num)).mpr h1

/-- Summing a quantity per weekday group over all seven weekday indices
recovers the sum over all rows. -/
theorem sum_partition_weekday (l : List (ℚ × ℚ)) (f : ℚ × ℚ → ℚ) :
    ∑ w in Finset.range 7, ((l.filter (fun p => wdayOf p.1 == w)).map f).sum =
      (l.map f).sum := by
  induction l with
  | nil => simp
  | cons p l ih =>
    have hstep : ∀ w ∈ Finset.range 7,
        (((p :: l).filter (fun q => wdayOf q.1 == w)).map f).sum =
          (if wdayOf p.1 = w then f p else 0) +
            ((l.filter (fun q => wdayOf q.1 == w)).map f).sum := by
      intro w _
      by_cases h : wdayOf p.1 = w <;> simp [List.filter_cons, h]
    rw [Finset.sum_congr rfl hstep, Finset.sum_add_distrib, ih,
      Finset.sum_ite_eq, if_pos (Finset.mem_range.mpr (wdayOf_lt p.1))]
    simp

/-- Summing the total column of the kept report rows equals summing, over
all candidate indices, a value that matches the kept row's total and is 0
for dropped indices. -/
theorem sum_totals_filterMap (F : ℕ → Option WRow) (val : ℕ → ℚ) (L : List ℕ)
    (h : ∀ w ∈ L, (match F w with | some r => r.totalSpent | none => 0) = val w) :
    (((L.filterMap F).map WRow.totalSpent)).sum = (L.map val).sum := by
  induction L with
  | nil => simp
  | cons w L ih =>
    have hw := h w (List.mem_cons_self w L)
    have hrest : ∀ x ∈ L, (match F x with | some r => r.totalSpent | none => 0) = val x :=
      fun x hx => h x (List.mem_cons_of_mem w hx)
    cases hF : F w with
    | none =>
      rw [List.filterMap_cons_none hF, List.map_cons, List.sum_cons, ih hrest]
      rw [hF] at hw
      simp at hw
      rw [← hw]
      ring
    | some r =>
      rw [List.filterMap_cons_some hF, List.map_cons, List.sum_cons,
        List.map_cons, List.sum_cons, ih hrest]
      rw [hF] at hw
      simp at hw
      rw [hw]

/-- The weekday indices of the kept report rows are the candidate indices
whose group survived. -/
theorem map_wd_filterMap (F : ℕ → Option WRow) (L : List ℕ)
    (h : ∀ w r, F w = some r → r.wd = w) :
    (L.filterMap F).map WRow.wd = L.filter (fun w => (F w).isSome) := by
  induction L with
  | nil => simp
  | cons w L ih =>
    cases hF : F w with
    | none => rw [List.filterMap_cons_none hF, List.filter_cons, ih]; simp [hF]
    | some r =>
      rw [List.filterMap_cons_some hF, List.filter_cons]
      simp only [hF, Option.isSome_some, if_pos]
      rw [List.map_cons, ih, h w r hF]

/-- A sum of absolute amounts that are integer multiples of `1/100` is
itself an integer multiple of `1/100`. -/
theorem sum_abs_hundredth (l : List (ℚ × ℚ))
    (h : ∀ p ∈ l, ∃ k : ℤ, p.2 = (k : ℚ)/100) :
    ∃ K : ℤ, ((l.map (fun p => |p.2|)).sum) = (K : ℚ)/100 := by
  induction l with
  | nil => exact ⟨0, by simp⟩
  | cons p l ih =>
    obtain ⟨k, hk⟩ := h p (List.mem_cons_self p l)
    obtain ⟨K, hK⟩ := ih (fun q hq => h q (List.mem_cons_of_mem p hq))
    refine ⟨|k| + K, ?_⟩
    rw [List.map_cons, List.sum_cons, hK, hk, abs_div]
    push_cast
    rw [abs_of_pos (show (0:ℚ) < 100 by norm_num)]
    ring

/-- Every window row's amount is some table row's amount. -/
theorem windowRows_amount (t : RTable) (e : ℚ) (p : ℚ × ℚ)
    (hp : p ∈ windowRows t e) : ∃ r ∈ t.rows, p.2 = r.amount := by
  simp only [windowRows, List.mem_filter, List.mem_filterMap] at hp
  obtain ⟨⟨⟨row, hrow, heq⟩, _⟩, _⟩ := hp
  rcases Option.map_eq_some'.mp heq with ⟨d, _, hpd⟩
  exact ⟨row, hrow, by rw [← hpd]⟩

/-- Claim C3 (amended): when every amount in the table is an integer
multiple of `0.01`, the sum of the per-weekday `общие_траты` values equals
the sum of absolute amounts of the expense rows with parseable dates in
the inclusive window (in general each per-weekday total is first rounded
to two decimals); the report's rows are ordered by weekday index
ascending; and a weekday index appears in the report exactly when some
window row falls on it (zero-transaction weekdays are omitted). -/
theorem claim_C3 (t : RTable) (e : ℚ) (hA : t.hasAmount = true)
    (hD : t.hasOpDate = true ∨ t.hasPayDate = true)
    (hmul : ∀ r ∈ t.rows, ∃ k : ℤ, r.amount = (k : ℚ)/100) :
    sumTotals (spending_by_weekday t e) = windowAbsSum t e ∧
    ((spending_by_weekday t e).map WRow.wd).Pairwise (· < ·) ∧
    (∀ w, w ∈ (spending_by_weekday t e).map WRow.wd ↔
      ∃ p ∈ windowRows t e, wdayOf p.1 = w) := by
  have hcol : (t.hasOpDate || t.hasPayDate) = true := by
    rcases hD with h | h <;> simp [h]
  have hgmul : ∀ w : ℕ, ∀ p ∈ weekdayGroup t e w, ∃ k : ℤ, p.2 = (k : ℚ)/100 := by
    intro w p hp
    have hpR : p ∈ windowRows t e := List.mem_of_mem_filter hp
    obtain ⟨r, hr, hpr⟩ := windowRows_amount t e p hpR
    obtain ⟨k, hk⟩ := hmul r hr
    exact ⟨k, by rw [hpr, hk]⟩
  by_cases hw : windowRows t e = []
  · refine ⟨?_, ?_, ?_⟩
    · simp [spending_by_weekday, hA, hcol, hw, sumTotals, windowAbsSum]
    · simp [spending_by_weekday, hA, hcol, hw]
    · intro w
      simp [spending_by_weekday, hA, hcol, hw]
  · have hsbw : spending_by_weekday t e =
        (List.range 7).filterMap (fun w =>
          if weekdayGroup t e w = [] then none
          else some ⟨w, dayName w,
            round2 (listMean ((weekdayGroup t e w).map (fun p => |p.2|))),
            round2 (((weekdayGroup t e w).map (fun p => |p.2|)).sum),
            (weekdayGroup t e w).length⟩) := by
      simp [spending_by_weekday, hA, hcol, hw]
    have hFwd : ∀ w r, (if weekdayGroup t e w = [] then none
          else some (⟨w, dayName w,
            round2 (listMean ((weekdayGroup t e w).map (fun p => |p.2|))),
            round2 (((weekdayGroup t e w).map (fun p => |p.2|)).sum),
            (weekdayGroup t e w).length⟩ : WRow)) = some r → r.wd = w := by
      intro w r h
      by_cases hg : weekdayGroup t e w = []
      · simp [hg] at h
      · simp only [if_neg hg, Option.some.injEq] at h
        rw [← h]
    have hmapwd : (spending_by_weekday t e).map WRow.wd =
        (List.range 7).filter (fun w =>
          (if weekdayGroup t e w = [] then none
          else some (⟨w, dayName w,
            round2 (listMean ((weekdayGroup t e w).map (fun p => |p.2|))),
            round2 (((weekdayGroup t e w).map (fun p => |p.2|)).sum),
            (weekdayGroup t e w).length⟩ : WRow)).isSome) := by
      rw [hsbw]
      exact map_wd_filterMap _ _ hFwd
    refine ⟨?_, ?_, ?_⟩
    · have hval : ∀ w ∈ List.range 7,
          (match (if weekdayGroup t e w = [] then none
            else some (⟨w, dayName w,
              round2 (listMean ((weekdayGroup t e w).map (fun p => |p.2|))),
              round2 (((weekdayGroup t e w).map (fun p => |p.2|)).sum),
              (weekdayGroup t e w).length⟩ : WRow)) with
            | some r => r.totalSpent | none => 0) =
            ((weekdayGroup t e w).map (fun p => |p.2|)).sum := by
        intro w _
        by_cases hg : weekdayGroup t e w = []
        · simp [hg]
        · simp only [if_neg hg]
          obtain ⟨K, hK⟩ := sum_abs_hundredth (weekdayGroup t e w) (hgmul w)
          rw [hK, round2_hundredth]
      rw [sumTotals, hsbw, sum_totals_filterMap _ _ _ hval]
      have hfin : ((List.range 7).map
          (fun w => ((weekdayGroup t e w).map (fun p => |p.2|)).sum)).sum =
          ∑ w in Finset.range 7,
            (((windowRows t e).filter (fun p => wdayOf p.1 == w)).map
              (fun p => |p.2|)).sum := rfl
      rw [hfin, sum_partition_weekday]
      rfl
    · rw [hmapwd]
      exact List.Pairwise.filter _ (List.pairwise_lt_range 7)
    · intro w
      rw [hmapwd, List.mem_filter]
      constructor
      · rintro ⟨_, hsome⟩
        by_cases hg : weekdayGroup t e w = []
        · simp [hg] at hsome
        · obtain ⟨p, hp⟩ := List.exists_mem_of_ne_nil _ hg
          have hmem := List.mem_filter.mp hp
          exact ⟨p, hmem.1, by simpa using hmem.2⟩
      · rintro ⟨p, hpR, hpw⟩
        have hpg : p ∈ weekdayGroup t e w := by
          rw [weekdayGroup, List.mem_filter]
          exact ⟨hpR, by simp [hpw]⟩
        have hg : weekdayGroup t e w ≠ [] := List.ne_nil_of_mem hpg
        constructor
        · exact List.mem_range.mpr (hpw ▸ wdayOf_lt p.1)
        · simp [if_neg hg]

/-- A table with one window expense row of `-0.004`, a sub-cent amount. -/
def tblC3 : RTable := ⟨true, false, true, [⟨some 10, none, -(1/250)⟩]⟩

/-- Claim C3 (counterexample): with the single amount `-0.004` the
per-weekday total is rounded to `0`, so the sum of `общие_траты` is `0`
while the sum of absolute window amounts is `0.004`: the exact-equality
claim fails for amounts finer than one cent. -/
theorem claim_C3_cex :
    sumTotals (spending_by_weekday tblC3 15) ≠ windowAbsSum tblC3 15 := by
  have hw : windowRows tblC3 15 = [(10, -(1/250))] := by
    norm_num [windowRows, tblC3, get_date_range, inWindow, dateOf,
      List.filter_cons, List.filterMap_cons, Bool.and_eq_true, decide_eq_true_eq]
  have hwd : wdayOf 10 = 3 := by
    rw [wdayOf, show ⌊(10:ℚ)⌋ = 10 from by norm_num]
    rfl
  have hg : ∀ w : ℕ, weekdayGroup tblC3 15 w = if w = 3 then [(10, -(1/250))] else [] := by
    intro w
    rw [weekdayGroup, hw]
    by_cases h3 : w = 3
    · subst h3
      simp [List.filter_cons, hwd]
    · rw [List.filter_cons]
      simp only [hwd]
      have h3s : ¬ (3 = w) := by omega
      simp [h3, h3s]
  have hsbw : spending_by_weekday tblC3 15 =
      [⟨3, dayName 3, round2 (listMean ([(10, -(1/250))].map (fun p => |p.2|))),
        round2 (([((10:ℚ), -(1/250))].map (fun p => |p.2|)).sum), 1⟩] := by
    rw [spending_by_weekday]
    rw [show List.range 7 = [0, 1, 2, 3, 4, 5, 6] from rfl]
    norm_num [hw, hg, List.filterMap_cons,
      show tblC3.hasAmount = true from rfl, show tblC3.hasOpDate = true from rfl]
  rw [hsbw, windowAbsSum, hw, sumTotals]
  norm_num [listMean, round2, roundHalfEven, abs_of_nonpos]

/-- Claim C3 witness: the amended statement at `tblC2`, whose two amounts
are whole numbers of rubles (multiples of `0.01`). -/
theorem claim_C3_witness :
    sumTotals (spending_by_weekday tblC2 10) = windowAbsSum tblC2 10 ∧
    ((spending_by_weekday tblC2 10).map WRow.wd).Pairwise (· < ·) ∧
    (∀ w, w ∈ (spending_by_weekday tblC2 10).map WRow.wd ↔
      ∃ p ∈ windowRows tblC2 10, wdayOf p.1 = w) :=
  claim_C3 tblC2 10 rfl (Or.inl rfl) (by
    intro r hr
    simp only [tblC2, List.mem_cons, List.not_mem_nil, or_false] at hr
    rcases hr with h | h <;> subst h
    · exact ⟨-100, by norm_num⟩
    · exact ⟨-300, by norm_num⟩)

/-! Claim C4: the cashback analyzer's aggregation and ordering. -/

/-- Membership in an insertion step. -/
theorem mem_insBy (le : α → α → Bool) (x : α) (l : List α) (z : α) :
    z ∈ insBy le x l ↔ z = x ∨ z ∈ l := by
  induction l with
  | nil => simp [insBy]
  | cons y ys ih =>
    by_cases h : le x y
    · simp [insBy, h, ih]
    · simp [insBy, h, ih]
      tauto

/-- An insertion step permutes consing. -/
theorem insBy_perm (le : α → α → Bool) (x : α) (l : List α) :
    List.Perm (insBy le x l) (x :: l) := by
  induction l with
  | nil => rfl
  | cons y ys ih =>
    by_cases h : le x y
    · rw [insBy, if_pos h]
    · rw [insBy, if_neg h]
      exact (ih.cons y).trans (List.Perm.swap x y ys)

/-- Insertion sort permutes its input. -/
theorem isortBy_perm (le : α → α → Bool) (l : List α) : List.Perm (isortBy le l) l := by
  induction l with
  | nil => rfl
  | cons x xs ih => exact (insBy_perm le x _).trans (ih.cons x)

/-- Inserting into a list sorted ascending by value keeps it sorted. -/
theorem insBy_valLe_sorted (x : String × ℚ) (l : List (String × ℚ))
    (h : l.Pairwise (fun a b => a.2 ≤ b.2)) :
    (insBy valLe x l).Pairwise (fun a b => a.2 ≤ b.2) := by
  induction l with
  | nil => simp [insBy]
  | cons y ys ih =>
    rw [List.pairwise_cons] at h
    obtain ⟨hy, hys⟩ := h
    by_cases hxy : valLe x y = true
    · rw [insBy, if_pos hxy, List.pairwise_cons]
      have hxyv : x.2 ≤ y.2 := of_decide_eq_true hxy
      refine ⟨?_, List.pairwise_cons.mpr ⟨hy, hys⟩⟩
      intro z hz
      rcases List.mem_cons.mp hz with hzy | hzys
      · rw [hzy]
        exact hxyv
      · exact le_trans hxyv (hy z hzys)
    · rw [insBy, if_neg hxy, List.pairwise_cons]
      have hyx : y.2 ≤ x.2 :=
        le_of_lt (lt_of_not_le (fun hh => hxy (decide_eq_true hh)))
      refine ⟨?_, ih hys⟩
      intro z hz
      rcases (mem_insBy valLe x ys z).mp hz with hzx | hzys
      · rw [hzx]
        exact hyx
      · exact hy z hzys

/-- Insertion sort by value sorts any association list ascending. -/
theorem isortBy_valLe_sorted (l : List (String × ℚ)) :
    (isortBy valLe l).Pairwise (fun a b => a.2 ≤ b.2) := by
  induction l with
  | nil => simp [isortBy]
  | cons x xs ih => exact insBy_valLe_sorted x _ ih

/-- The descending sort's output is ordered by descending value.  This
holds for any resolution of the tie order, so it is a property of the
program and not only of the model. -/
theorem sortValsDesc_sorted (l : List (String × ℚ)) :
    (sortValsDesc l).Pairwise (fun a b => b.2 ≤ a.2) := by
  rw [sortValsDesc, List.pairwise_reverse]
  exact isortBy_valLe_sorted l

/-- The descending sort's output is a permutation of its input.  This
also holds for any resolution of the tie order. -/
theorem sortValsDesc_perm (l : List (String × ℚ)) :
    List.Perm (sortValsDesc l) l :=
  ((isortBy valLe l).reverse_perm).trans (isortBy_perm valLe l)

/-- Replacing every row's recorded cashback leaves the matched rows
pointwise cashback-replaced. -/
theorem cbMatched_mapCb (t : STable) (y m : ℕ) (f : ℚ → ℚ) :
    cbMatchedRows (mapCashbackField f t) y m =
      (cbMatchedRows t y m).map (fun r => { r with cashback := f r.cashback }) := by
  simp only [cbMatchedRows, mapCashbackField, List.filter_map]
  rfl

/-- The analysis ignores the recorded cashback field entirely. -/
theorem analyze_mapCb (t : STable) (y m : ℕ) (f : ℚ → ℚ) :
    analyze_cashback_categories (mapCashbackField f t) y m =
      analyze_cashback_categories t y m := by
  have hcats : (cbMatchedRows (mapCashbackField f t) y m).map SRow.category =
      (cbMatchedRows t y m).map SRow.category := by
    rw [cbMatched_mapCb, List.map_map]
    rfl
  have hsum : ∀ c, catAmountSum (cbMatchedRows (mapCashbackField f t) y m) c =
      catAmountSum (cbMatchedRows t y m) c := by
    intro c
    rw [catAmountSum, catAmountSum, cbMatched_mapCb, List.filter_map, List.map_map]
    rfl
  have hgroups : cashbackGroups (mapCashbackField f t) y m = cashbackGroups t y m := by
    rw [cashbackGroups, cashbackGroups, hcats]
    exact List.map_congr_left (fun c _ => by rw [hsum c])
  have hflags : ((mapCashbackField f t).hasOpDate && (mapCashbackField f t).hasCategory &&
      (mapCashbackField f t).hasAmount && (mapCashbackField f t).hasCashback) =
      (t.hasOpDate && t.hasCategory && t.hasAmount && t.hasCashback) := rfl
  have hnil : (cbMatchedRows (mapCashbackField f t) y m = []) ↔
      (cbMatchedRows t y m = []) := by
    rw [cbMatched_mapCb]
    simp
  rw [analyze_cashback_categories, analyze_cashback_categories, hflags, hgroups]
  by_cases hc : (t.hasOpDate && t.hasCategory && t.hasAmount && t.hasCashback) = true
  · by_cases hm : cbMatchedRows t y m = []
    · simp [hc, hm, hnil.mpr hm]
    · have hm2 : ¬ (cbMatchedRows (mapCashbackField f t) y m = []) :=
        fun hh => hm (hnil.mp hh)
      simp [hc, hm, hm2]
  · simp [hc]

/-- The spec's concrete example: three January-2024 expense rows with
arbitrary recorded cashback values (which the analysis ignores). -/
def tblC4ex : STable :=
  ⟨true, true, true, true,
   [⟨some ⟨2024, 1, 5, 0, 0, 0⟩, "Супермаркеты", -(15005/10), 30⟩,
    ⟨some ⟨2024, 1, 6, 0, 0, 0⟩, "Кафе и рестораны", -800, 16⟩,
    ⟨some ⟨2024, 1, 7, 0, 0, 0⟩, "Супермаркеты", -(50025/100), 10⟩]⟩

/-- Two categories tied at the same cashback amount, grouped ascending as
`Аптеки`, `Кафе и рестораны`. -/
def tblC4tie : STable :=
  ⟨true, true, true, true,
   [⟨some ⟨2024, 1, 5, 0, 0, 0⟩, "Аптеки", -800, 5⟩,
    ⟨some ⟨2024, 1, 6, 0, 0, 0⟩, "Кафе и рестораны", -800, 5⟩]⟩

/-- Claim C4 (amended): with the required columns present and at least one
matching row, the analysis returns the grouped categories — each mapped to
`round(0.01 × Σ|amount|, 2)`, the recorded cashback field being ignored —
as a permutation of the ascending-category grouping, ordered by descending
cashback amount; the spec's concrete example evaluates as stated.  The
original claim's ties-preserve-grouping-order (stable sort) clause is
dropped: pandas' `sort_values(ascending=False)` reverses an ascending
quicksort argsort that guarantees no tie order, and on the
counterexample's tied pair the code demonstrably reverses the grouping
order instead of preserving it. -/
theorem claim_C4 :
    (∀ (t : STable) (y m : ℕ),
      (t.hasOpDate && t.hasCategory && t.hasAmount && t.hasCashback) = true →
      cbMatchedRows t y m ≠ [] →
      ∃ l, analyze_cashback_categories t y m = .ok l ∧
        List.Perm l (cashbackGroups t y m) ∧
        l.Pairwise (fun a b => b.2 ≤ a.2)) ∧
    (∀ (t : STable) (y m : ℕ) (f : ℚ → ℚ),
      analyze_cashback_categories (mapCashbackField f t) y m =
        analyze_cashback_categories t y m) ∧
    analyze_cashback_categories tblC4ex 2024 1 =
      .ok [("Супермаркеты", 2001/100), ("Кафе и рестораны", 8)] := by
  refine ⟨?_, analyze_mapCb, ?_⟩
  · intro t y m hc hm
    exact ⟨sortValsDesc (cashbackGroups t y m),
      by simp [analyze_cashback_categories, hc, hm],
      sortValsDesc_perm _, sortValsDesc_sorted _⟩
  · have h20 : round2 ((8003:ℚ)/400) = 2001/100 := by
      norm_num [round2, roundHalfEven]
    have h20b : round2 (|(8003:ℚ)/4| * (1/100)) = 2001/100 := by
      rw [show |(8003:ℚ)/4| * (1/100) = 8003/400 by rw [abs_of_nonneg] <;> norm_num]
      exact h20
    have h8 : round2 ((8:ℚ)) = 8 := by
      norm_num [round2, roundHalfEven]
    have h8b : round2 (|(-800:ℚ)| * (1/100)) = 8 := by
      rw [show |(-800:ℚ)| * (1/100) = 8 by rw [abs_of_nonpos] <;> norm_num]
      exact h8
    norm_num +decide [analyze_cashback_categories, cbMatchedRows, cashbackGroups,
      sortedCats, firstUniq, firstUniqAux, isortBy, insBy, valLe, catAmountSum,
      sortValsDesc, strLe, strLt, charsLt, List.filter_cons, tblC4ex,
      h20, h20b, h8, h8b]

/-- Claim C4 (counterexample): on two categories tied at cashback `8.00`
the code emits `Кафе и рестораны` before `Аптеки` — the REVERSE of the
grouping's ascending order (`Аптеки` < `Кафе и рестораны`), refuting the
claim's ties-preserve-grouping-order (stable sort) clause.  A two-element
tied group lies in numpy's insertion-sort regime, where the ascending
argsort is stable, so the modelled output is the program's actual output
here. -/
theorem claim_C4_cex :
    analyze_cashback_categories tblC4tie 2024 1 =
      .ok [("Кафе и рестораны", 8), ("Аптеки", 8)] ∧
    analyze_cashback_categories tblC4tie 2024 1 ≠
      .ok [("Аптеки", 8), ("Кафе и рестораны", 8)] ∧
    strLt "Аптеки" "Кафе и рестораны" = true := by
  have h8 : round2 ((8:ℚ)) = 8 := by
    norm_num [round2, roundHalfEven]
  have h8b : round2 (|(-800:ℚ)| * (1/100)) = 8 := by
    rw [show |(-800:ℚ)| * (1/100) = 8 by rw [abs_of_nonpos] <;> norm_num]
    exact h8
  have hfirst : analyze_cashback_categories tblC4tie 2024 1 =
      .ok [("Кафе и рестораны", 8), ("Аптеки", 8)] := by
    norm_num +decide [analyze_cashback_categories, cbMatchedRows, cashbackGroups,
      sortedCats, firstUniq, firstUniqAux, isortBy, insBy, valLe, catAmountSum,
      sortValsDesc, strLe, strLt, charsLt, List.filter_cons, tblC4tie, h8, h8b]
  refine ⟨hfirst, ?_, by decide⟩
  rw [hfirst]
  simp

/-- Claim C4 witness: the amended statement's universal part at the
tied-categories table. -/
theorem claim_C4_witness :
    ∃ l, analyze_cashback_categories tblC4tie 2024 1 = .ok l ∧
      List.Perm l (cashbackGroups tblC4tie 2024 1) ∧
      l.Pairwise (fun a b => b.2 ≤ a.2) :=
  claim_C4.1 tblC4tie 2024 1 (by decide) (by decide)
